import Mathlib

/-
Shallow embedding of src/okcupyd/util/currying.py.

The Python module defines a single class `curry` that wraps a callable
together with an evaluation checker and accumulated positional and named
arguments.  Calling a wrapper either evaluates the wrapped callable (when
the checker approves the merged argument collections) or returns a fresh
wrapper carrying the merged collections.

Modelling choices, all taken from the source:
 - a Python callable is a `Func V`: the introspectable signature data
   returned by `inspect.getargspec` (ordered parameter names, the number of
   trailing default values, whether a **kwargs parameter exists), the
   `inspect.isclass` flag, `__name__`, `__doc__`, and the call semantics
   `impl` which may raise (modelled as `Except String`);
 - keyword-argument dictionaries are association lists with insertion-order
   update semantics (`dictSet` keeps the position of an existing key and
   appends a fresh key, exactly like a Python dict);
 - `curry.__call__` is `curryCall`; it additionally reports the list of
   evaluations of the wrapped callable it performed, so that theorems can
   speak about how often and with which arguments the callable ran;
 - `curry.__get__` is `curry_get` over an explicit instance object whose
   attribute dictionary it mutates by `setattr`;
 - object allocation and non-mutation of existing wrappers is made
   observable by `curryCallS`, a version of `__call__` over an explicit
   store of wrapper objects addressed by index;
 - line 131, `curry = curry(curry)`, is `curried_curry`: the class itself,
   as a callable value, wrapped by the mechanism; constructing through it
   is `curry_construct`, faithful to the parameter binding of
   `curry.__init__`.
-/

namespace Currying

/-- A keyword-argument dictionary: an association list from names to values,
kept in insertion order. -/
abbrev Kwargs (A : Type) := List (String × A)

/-- Dictionary lookup: the value at the first entry carrying the key. -/
def dictGet {A : Type} : Kwargs A → String → Option A
  | [], _ => none
  | p :: rest, k => if p.1 = k then some p.2 else dictGet rest k

/-- Dictionary assignment, Python style: an existing key keeps its position
and gets the new value, a fresh key is appended at the end. -/
def dictSet {A : Type} : Kwargs A → String → A → Kwargs A
  | [], k, v => [(k, v)]
  | p :: rest, k, v => if p.1 = k then (p.1, v) :: rest else p :: dictSet rest k v

/-- `d.copy()` followed by `d.update(upd)`: every binding of `upd` is
assigned into `d` in order, so bindings of `upd` win on a name conflict. -/
def dictUpdate {A : Type} (d : Kwargs A) (upd : Kwargs A) : Kwargs A :=
  upd.foldl (fun acc p => dictSet acc p.1 p.2) d

/-- The signature data `inspect.getargspec` returns for a callable:
the declared parameter names in order (`args`), the number of trailing
parameters with default values (`defaults`, with `0` standing for the
falsy `None` or empty tuple), and whether a **kwargs parameter is declared
(`keywords`, with `false` standing for `None`). -/
structure ArgSpec where
  args : List String
  defaults : Nat
  keywords : Bool

/-- A Python callable as the currying module sees it: its argspec, whether
`inspect.isclass` holds for it, its `__name__` and `__doc__`, and its call
semantics, which may raise an exception (the `Except.error` case). -/
structure Func (V : Type) where
  spec : ArgSpec
  is_class : Bool
  name : String
  doc : String
  impl : List V → Kwargs V → Except String V

/-- A `curry` wrapper object: the wrapped callable, the evaluation checker,
and the accumulated positional and named arguments (`__init__` lines
90-104, with `args=()` and `kwargs or \x7b\x7d` as the empty defaults). -/
structure curry (V : Type) where
  function : Func V
  evaluation_checker : List V → Kwargs V → Bool
  args : List V
  kwargs : Kwargs V

/-- The condition of line 73 of the source: the callable accepts no
arbitrary named arguments, yet some supplied name is not among the
parameters left after the positional ones (`acceptable_kwargs`).  The
source builds a `TypeError` from it and drops it without raising. -/
def unrecognized_kwargs {V : Type} (F : Func V) (args : List V) (kwargs : Kwargs V) : Bool :=
  let function_args := if F.is_class then F.spec.args.drop 1 else F.spec.args
  let kwarg_keys := kwargs.map Prod.fst
  !F.spec.keywords &&
    !(kwarg_keys.all fun k => decide (k ∈ function_args.drop args.length))

/-- `curry.arity_evaluation_checker` (lines 54-82): for a class the
argspec of `__init__` is used and its leading `self` parameter dropped;
the checker then takes the parameters not already filled positionally,
removes the trailing default-valued ones, and approves when nothing
remains or every remaining name is bound by a keyword argument.  The
unrecognized-argument `TypeError` of line 74 is built and discarded,
mirrored here by a binding that is never used. -/
def curry.arity_evaluation_checker {V : Type} (F : Func V) : List V → Kwargs V → Bool :=
  let function_args := if F.is_class then F.spec.args.drop 1 else F.spec.args
  fun args kwargs =>
    let kwarg_keys := kwargs.map Prod.fst
    let _discarded_type_error := unrecognized_kwargs F args kwargs
    let needed_args := function_args.drop args.length
    let needed_args :=
      if F.spec.defaults ≠ 0 then needed_args.take (needed_args.length - F.spec.defaults)
      else needed_args
    decide (needed_args = []) || needed_args.all fun a => decide (a ∈ kwarg_keys)

/-- `curry.count_evaluation_checker` (lines 84-88): approve as soon as the
number of positional arguments reaches `count`, ignoring keywords. -/
def curry.count_evaluation_checker {V : Type} (count : Nat) : List V → Kwargs V → Bool :=
  fun args _kwargs => decide (args.length ≥ count)

/-- What an invocation of a wrapper returns: the evaluated result of the
wrapped callable (possibly an exception), or a new wrapper. -/
inductive CallResult (V : Type) where
  | evaluated : Except String V → CallResult V
  | wrapper : curry V → CallResult V

/-- The child wrapper built on line 113-114 of the source:
`type(self)(self.function, self.evaluation_checker, new_args, new_kwargs)`. -/
def curry.child {V : Type} (w : curry V) (args : List V) (kwargs : Kwargs V) : curry V :=
  curry.mk w.function w.evaluation_checker (w.args ++ args) (dictUpdate w.kwargs kwargs)

/-- `curry.__call__` (lines 106-114).  The merged positional arguments are
the accumulated ones followed by the new ones; the merged keyword
arguments are a copy of the accumulated dict updated with the new dict.
If the evaluation checker approves the merged collections the wrapped
callable is called with exactly them, otherwise a new wrapper carrying
them is returned.  The second component records every evaluation of the
wrapped callable that the invocation performed. -/
def curryCall {V : Type} (w : curry V) (args : List V) (kwargs : Kwargs V) :
    CallResult V × List (List V × Kwargs V) :=
  let new_args := w.args ++ args
  let new_kwargs := dictUpdate w.kwargs kwargs
  if w.evaluation_checker new_args new_kwargs then
    (CallResult.evaluated (w.function.impl new_args new_kwargs), [(new_args, new_kwargs)])
  else
    (CallResult.wrapper (curry.mk w.function w.evaluation_checker new_args new_kwargs), [])

/-- Concatenation of a list of argument batches, in order. -/
def joinAll {A : Type} : List (List A) → List A
  | [] => []
  | l :: ls => l ++ joinAll ls

/-- A chain of successive invocations of a wrapper, each supplying one
batch of positional arguments and no keywords.  Returns the final result,
the list of evaluations of the wrapped callable performed along the way,
and the batches left unconsumed in case an evaluation happened before the
last batch. -/
def applyChain {V : Type} : curry V → List (List V) →
    CallResult V × List (List V × Kwargs V) × List (List V)
  | w, [] => (CallResult.wrapper w, [], [])
  | w, batch :: rest =>
    let step := curryCall w batch []
    match step.1 with
    | CallResult.wrapper w2 =>
      let r := applyChain w2 rest
      (r.1, step.2 ++ r.2.1, r.2.2)
    | CallResult.evaluated e => (CallResult.evaluated e, step.2, rest)

/-- A host instance for method binding: the value that represents the
instance when it is passed as a positional argument, and its attribute
dictionary (only wrapper-valued attributes are relevant here). -/
structure Instance (V : Type) where
  selfVal : V
  attrs : List (String × curry V)

/-- The bound wrapper `__get__` builds on lines 119-120:
same function and checker, with the instance added to the accumulated
positional arguments (the source appends it: `self.args + (obj,)`). -/
def boundOf {V : Type} (self : curry V) (inst : Instance V) : curry V :=
  curry.mk self.function self.evaluation_checker (self.args ++ [inst.selfVal]) self.kwargs

/-- The attribute dictionary of the instance after `__get__` ran:
`setattr(obj, self.function.__name__, bound)` then
`setattr(obj, self.function.__doc__, bound)` (lines 122-123). -/
def attrsAfterGet {V : Type} (self : curry V) (inst : Instance V) : List (String × curry V) :=
  dictSet (dictSet inst.attrs self.function.name (boundOf self inst))
    self.function.doc (boundOf self inst)

/-- `curry.__get__` (lines 116-124): class access (`obj is None`) returns
the wrapper itself and touches nothing; instance access builds the bound
wrapper, stores it on the instance under the function name and under the
function docstring, and returns it. -/
def curry_get {V : Type} (self : curry V) (obj : Option (Instance V)) :
    Option (Instance V) × curry V :=
  match obj with
  | none => (none, self)
  | some inst =>
    (some (Instance.mk inst.selfVal (attrsAfterGet self inst)), boundOf self inst)

/-- Result of an invocation against an explicit object store: the
evaluated result of the wrapped callable, or the index of a freshly
allocated wrapper object. -/
inductive StepResult (V : Type) where
  | evaluated : Except String V → StepResult V
  | fresh : Nat → StepResult V

/-- `curry.__call__` against an explicit store of wrapper objects, making
allocation explicit: the new wrapper of line 113 is appended to the store,
and no existing store entry is ever written. -/
def curryCallS {V : Type} (s : List (curry V)) (i : Nat) (args : List V) (kwargs : Kwargs V) :
    List (curry V) × StepResult V :=
  match s[i]? with
  | none => (s, StepResult.evaluated (Except.error "invalid wrapper reference"))
  | some w =>
    let new_args := w.args ++ args
    let new_kwargs := dictUpdate w.kwargs kwargs
    if w.evaluation_checker new_args new_kwargs then
      (s, StepResult.evaluated (w.function.impl new_args new_kwargs))
    else
      (s ++ [curry.mk w.function w.evaluation_checker new_args new_kwargs],
       StepResult.fresh s.length)

/-- Values for the self-application level `curry = curry(curry)`: an
argument to the wrapped constructor may be an inner value, a callable, an
evaluation checker, an argument tuple, a keyword dict, or a wrapper
object (what constructing the class returns). -/
inductive CVal (V : Type) where
  | base : V → CVal V
  | funcV : Func V → CVal V
  | checkerV : (List V → Kwargs V → Bool) → CVal V
  | argsV : List V → CVal V
  | kwargsV : Kwargs V → CVal V
  | wrap : curry V → CVal V

/-- Bind one declared parameter of a Python call: by position if supplied,
otherwise by name. -/
def bindParam {A : Type} (args : List A) (kwargs : Kwargs A) (idx : Nat) (pname : String) :
    Option A :=
  match args[idx]? with
  | some v => some v
  | none => dictGet kwargs pname

/-- The argspec of `curry.__init__` (line 90):
`(self, function, evaluation_checker=None, args=(), kwargs=None)`, three
trailing defaults, no **kwargs parameter. -/
def curry_init_argspec : ArgSpec :=
  ArgSpec.mk ["self", "function", "evaluation_checker", "args", "kwargs"] 3 false

/-- Calling the class `curry` as a callable: bind the `__init__`
parameters (positionally or by name, with the declared defaults) and
build the wrapper object, deriving the arity checker from the wrapped
callable when no checker was supplied (`evaluation_checker or
self.arity_evaluation_checker(function)`, lines 99-100). -/
def curry_construct {V : Type} (args : List (CVal V)) (kwargs : Kwargs (CVal V)) :
    Except String (CVal V) :=
  match bindParam args kwargs 0 "function" with
  | none => Except.error "curry takes a function argument"
  | some fval =>
    let ecv := bindParam args kwargs 1 "evaluation_checker"
    let argsv := match bindParam args kwargs 2 "args" with
      | some (CVal.argsV l) => l
      | _ => []
    let kwargsv := match bindParam args kwargs 3 "kwargs" with
      | some (CVal.kwargsV d) => d
      | _ => []
    match fval with
    | CVal.funcV F =>
      let checker := match ecv with
        | some (CVal.checkerV c) => c
        | _ => curry.arity_evaluation_checker F
      Except.ok (CVal.wrap (curry.mk F checker argsv kwargsv))
    | _ => Except.error "curry cannot wrap this value"

/-- The class `curry` as a callable value at the outer level: a class
(`is_class` holds, so the derived arity checker skips `self`), whose call
semantics is `curry_construct`. -/
def curry_class_func (V : Type) : Func (CVal V) :=
  Func.mk curry_init_argspec true "curry" "Curry a function or method." curry_construct

/-- Line 131 of the source, `curry = curry(curry)`: the publicly exposed
constructor is the class wrapped by the mechanism itself, with the arity
checker derived from `__init__` minus `self`. -/
def curried_curry (V : Type) : curry (CVal V) :=
  curry.mk (curry_class_func V) (curry.arity_evaluation_checker (curry_class_func V)) [] []

/-- The required parameters in the words of the specification: the
declared parameters after dropping the first `p` (filled positionally)
and then dropping the trailing `defaultCount` default-valued ones. -/
def requiredParams (declared : List String) (defaultCount : Nat) (p : Nat) : List String :=
  ((declared.drop p).take ((declared.drop p).length - defaultCount))

/-- A three-parameter callable with no defaults, used as concrete test
input; it folds its positional arguments into a decimal number so that
the argument order is visible in the result. -/
def F1 : Func Int :=
  Func.mk (ArgSpec.mk ["a", "b", "c"] 0 false) false "F1" "F1 doc"
    (fun args _kwargs => Except.ok (args.foldl (fun x y => 10 * x + y) 0))

/-- The callable `f(x, y=1)` of the specification example: one default
parameter; its result `x + 10 * y` shows which value `y` received.  The
default binding follows the Python call convention for this signature:
`y` comes from the second positional argument, else from the keyword
`y`, else from its declared default `1`. -/
def fxy : Func Int :=
  Func.mk (ArgSpec.mk ["x", "y"] 1 false) false "fxy" "fxy doc"
    (fun args kwargs =>
      match args[0]? with
      | none => Except.error "fxy missing x"
      | some x =>
        let y := match args[1]? with
          | some v => v
          | none => match dictGet kwargs "y" with
            | some v => v
            | none => 1
        Except.ok (x + 10 * y))

/-- `curry(fxy)` with empty accumulators. -/
def wxy : curry Int :=
  curry.mk fxy (curry.arity_evaluation_checker fxy) [] []

/-- A two-parameter callable `f(x, y)` without a **kwargs parameter, used
to exercise the unrecognized-keyword check. -/
def f5 : Func Int :=
  Func.mk (ArgSpec.mk ["x", "y"] 0 false) false "f5" "f5 doc"
    (fun args _kwargs => Except.ok (args.foldl (fun x y => 10 * x + y) 0))

/-- `curry(f5)` with empty accumulators. -/
def w5 : curry Int :=
  curry.mk f5 (curry.arity_evaluation_checker f5) [] []

/-- The method `greet(self, greeting)` of the specification example; the
fold makes the positional order visible in the result. -/
def greet : Func Int :=
  Func.mk (ArgSpec.mk ["self", "greeting"] 0 false) false "greet" "greet doc"
    (fun args _kwargs => Except.ok (args.foldl (fun x y => 10 * x + y) 0))

/-- `curry(greet)` with empty accumulators, stored as a method attribute. -/
def wgreet : curry Int :=
  curry.mk greet (curry.arity_evaluation_checker greet) [] []

/-- A wrapper over `greet` that already accumulated the positional
argument `1` before being accessed through an instance. -/
def wne : curry Int :=
  curry.mk greet (curry.arity_evaluation_checker greet) [1] []

/-- A concrete host instance whose value as an argument is `2`. -/
def inst7 : Instance Int := Instance.mk 2 []

/-- A concrete host instance with value `7` and one unrelated attribute. -/
def instW : Instance Int := Instance.mk 7 [("other", wgreet)]

/-- A callable that always raises. -/
def fboom : Func Int :=
  Func.mk (ArgSpec.mk [] 0 false) false "fboom" "fboom doc"
    (fun _args _kwargs => Except.error "boom")

/-- A wrapper over `fboom` whose checker always approves. -/
def wboom : curry Int :=
  curry.mk fboom (curry.count_evaluation_checker 0) [] []

/-- A wrapper over `F1` with a count checker of two, used against the
explicit store. -/
def w4 : curry Int :=
  curry.mk F1 (curry.count_evaluation_checker 2) [] []

/-- A store holding the single wrapper object `w4`. -/
def store4 : List (curry Int) := [w4]

/-- A wrapper with accumulated keyword arguments, used to exercise the
overlay semantics of the keyword merge. -/
def w2c : curry Int :=
  curry.mk F1 (curry.count_evaluation_checker 9) [] [("a", (1 : Int)), ("b", (2 : Int))]

/- ------------------------------------------------------------------ -/
/- Dictionary lemmas -/
/- ------------------------------------------------------------------ -/

@[simp] theorem dictUpdate_nil {A : Type} (d : Kwargs A) : dictUpdate d [] = d := rfl

theorem dictUpdate_cons {A : Type} (d : Kwargs A) (p : String × A) (rest : Kwargs A) :
    dictUpdate d (p :: rest) = dictUpdate (dictSet d p.1 p.2) rest := rfl

theorem dictGet_dictSet_self {A : Type} :
    ∀ (d : Kwargs A) (k : String) (v : A), dictGet (dictSet d k v) k = some v
  | [], k, v => by simp [dictSet, dictGet]
  | p :: rest, k, v => by
    by_cases h : p.1 = k
    · simp [dictSet, dictGet, h]
    · simp [dictSet, dictGet, h, dictGet_dictSet_self rest k v]

theorem dictGet_dictSet_ne {A : Type} :
    ∀ (d : Kwargs A) (k k' : String) (v : A), k' ≠ k →
      dictGet (dictSet d k v) k' = dictGet d k'
  | [], k, k', v, h => by
    have hkk : ¬k = k' := fun he => h he.symm
    simp [dictSet, dictGet, hkk]
  | p :: rest, k, k', v, h => by
    by_cases hp : p.1 = k
    · have hkk : ¬k = k' := fun he => h he.symm
      simp [dictSet, dictGet, hp, hkk]
    · by_cases hq : p.1 = k'
      · simp [dictSet, dictGet, hp, hq, h]
      · simp [dictSet, dictGet, hp, hq, dictGet_dictSet_ne rest k k' v h]

theorem dictGet_none_of_not_mem {A : Type} :
    ∀ (d : Kwargs A) (k : String), k ∉ d.map Prod.fst → dictGet d k = none
  | [], _, _ => rfl
  | p :: rest, k, h => by
    have h' : ¬(k = p.1 ∨ k ∈ rest.map Prod.fst) := by simpa using h
    have h1 : p.1 ≠ k := fun he => (h' (Or.inl he.symm))
    have h2 : k ∉ rest.map Prod.fst := fun hm => h' (Or.inr hm)
    simp [dictGet, h1, dictGet_none_of_not_mem rest k h2]

theorem dictGet_dictUpdate {A : Type} :
    ∀ (upd d : Kwargs A) (k : String), (upd.map Prod.fst).Nodup →
      dictGet (dictUpdate d upd) k =
        match dictGet upd k with
        | some v => some v
        | none => dictGet d k
  | [], d, k, _ => by simp [dictGet]
  | p :: rest, d, k, h => by
    rw [List.map_cons, List.nodup_cons] at h
    have hnd : (rest.map Prod.fst).Nodup := h.2
    have hp : p.1 ∉ rest.map Prod.fst := h.1
    rw [dictUpdate_cons, dictGet_dictUpdate rest (dictSet d p.1 p.2) k hnd]
    by_cases hk : p.1 = k
    · subst hk
      rw [dictGet_none_of_not_mem rest p.1 hp]
      simp [dictGet, dictGet_dictSet_self]
    · have hk' : k ≠ p.1 := fun he => hk he.symm
      rw [dictGet_dictSet_ne d p.1 k p.2 hk']
      cases hrest : dictGet rest k <;> simp [dictGet, hk, hrest]

/- ------------------------------------------------------------------ -/
/- Evaluation checker lemmas -/
/- ------------------------------------------------------------------ -/

theorem needed_take {A : Type} (na : List A) (d : Nat) :
    (if d ≠ 0 then na.take (na.length - d) else na) = na.take (na.length - d) := by
  by_cases h : d = 0
  · subst h
    simp [List.take_length]
  · simp [h]

theorem arity_checker_eval {V : Type} (F : Func V) (hF : F.is_class = false)
    (args : List V) (kwargs : Kwargs V) :
    curry.arity_evaluation_checker F args kwargs =
      (decide (requiredParams F.spec.args F.spec.defaults args.length = []) ||
        (requiredParams F.spec.args F.spec.defaults args.length).all
          fun a => decide (a ∈ kwargs.map Prod.fst)) := by
  simp only [curry.arity_evaluation_checker, requiredParams, hF, Bool.false_eq_true, if_false]
  rw [needed_take]

theorem arity_checker_nil_kwargs_true {V : Type} (F : Func V) (hF : F.is_class = false)
    (_hd : F.spec.defaults = 0) (args : List V)
    (hge : F.spec.args.length ≤ args.length) :
    curry.arity_evaluation_checker F args [] = true := by
  rw [arity_checker_eval F hF]
  unfold requiredParams
  simp [List.drop_eq_nil_of_le hge]

theorem arity_checker_nil_kwargs_false {V : Type} (F : Func V) (hF : F.is_class = false)
    (hd : F.spec.defaults = 0) (args : List V)
    (hlt : args.length < F.spec.args.length) :
    curry.arity_evaluation_checker F args [] = false := by
  rw [arity_checker_eval F hF]
  unfold requiredParams
  rw [hd]
  cases hna : F.spec.args.drop args.length with
  | nil =>
    exfalso
    have hlen := congrArg List.length hna
    rw [List.length_drop] at hlen
    simp at hlen
    omega
  | cons a t => simp [List.take_length]

/- ------------------------------------------------------------------ -/
/- Call chain lemmas -/
/- ------------------------------------------------------------------ -/

@[simp] theorem joinAll_nil {A : Type} : joinAll ([] : List (List A)) = [] := rfl

@[simp] theorem joinAll_cons {A : Type} (l : List A) (ls : List (List A)) :
    joinAll (l :: ls) = l ++ joinAll ls := rfl

theorem applyChain_step_wrapper {V : Type} (w : curry V) (batch : List V)
    (rest : List (List V))
    (hchk : w.evaluation_checker (w.args ++ batch) w.kwargs = false) :
    applyChain w (batch :: rest) = applyChain (curry.child w batch []) rest := by
  simp only [applyChain, curryCall, curry.child, dictUpdate_nil, hchk, Bool.false_eq_true,
    if_false, List.nil_append, Prod.mk.eta]

theorem applyChain_step_evaluated {V : Type} (w : curry V) (batch : List V)
    (rest : List (List V))
    (hchk : w.evaluation_checker (w.args ++ batch) w.kwargs = true) :
    applyChain w (batch :: rest) =
      (CallResult.evaluated (w.function.impl (w.args ++ batch) w.kwargs),
       [(w.args ++ batch, w.kwargs)], rest) := by
  simp only [applyChain, curryCall, dictUpdate_nil, hchk, if_true]

theorem applyChain_insufficient {V : Type} (F : Func V) (hF : F.is_class = false)
    (hd : F.spec.defaults = 0) :
    ∀ (batches : List (List V)) (acc : List V),
      acc.length + (batches.map List.length).sum < F.spec.args.length →
      applyChain (curry.mk F (curry.arity_evaluation_checker F) acc []) batches =
        (CallResult.wrapper
          (curry.mk F (curry.arity_evaluation_checker F) (acc ++ joinAll batches) []), [], [])
  | [], acc, _h => by simp [applyChain]
  | b :: bs, acc, h => by
    have hsum : acc.length + (b.length + ((bs.map List.length).sum)) < F.spec.args.length := by
      simpa using h
    have hlt : (acc ++ b).length < F.spec.args.length := by
      rw [List.length_append]; omega
    have hchk := arity_checker_nil_kwargs_false F hF hd (acc ++ b) hlt
    have ih := applyChain_insufficient F hF hd bs (acc ++ b)
      (by rw [List.length_append]; omega)
    rw [applyChain_step_wrapper _ _ _ hchk]
    simp only [curry.child, dictUpdate_nil]
    rw [ih]
    simp [List.append_assoc]

theorem applyChain_complete {V : Type} (F : Func V) (hF : F.is_class = false)
    (hd : F.spec.defaults = 0) :
    ∀ (batches : List (List V)) (acc : List V), batches ≠ [] →
      (∀ b ∈ batches, b ≠ []) →
      acc.length + (batches.map List.length).sum = F.spec.args.length →
      applyChain (curry.mk F (curry.arity_evaluation_checker F) acc []) batches =
        (CallResult.evaluated (F.impl (acc ++ joinAll batches) []),
         [(acc ++ joinAll batches, [])], [])
  | [], _, hne, _, _ => absurd rfl hne
  | [b], acc, _, _, hsum => by
    have hge : F.spec.args.length ≤ (acc ++ b).length := by
      rw [List.length_append]
      simp at hsum
      omega
    have hchk := arity_checker_nil_kwargs_true F hF hd (acc ++ b) hge
    rw [applyChain_step_evaluated _ _ _ hchk]
    simp
  | b :: c :: cs, acc, _, hall, hsum => by
    have hc : c ≠ [] := hall c (by simp)
    have hcpos : 0 < c.length := List.length_pos.mpr hc
    have hsum' : acc.length + (b.length + (c.length + ((cs.map List.length).sum)))
        = F.spec.args.length := by simpa using hsum
    have hlt : (acc ++ b).length < F.spec.args.length := by
      rw [List.length_append]; omega
    have hchk := arity_checker_nil_kwargs_false F hF hd (acc ++ b) hlt
    have ih := applyChain_complete F hF hd (c :: cs) (acc ++ b) (by simp)
      (fun x hx => hall x (List.mem_cons_of_mem b hx))
      (by rw [List.length_append]; simp; omega)
    rw [applyChain_step_wrapper _ _ _ hchk]
    simp only [curry.child, dictUpdate_nil]
    rw [ih]
    simp [List.append_assoc]

/- ------------------------------------------------------------------ -/
/- Claim theorems -/
/- ------------------------------------------------------------------ -/

/-- C1: for a callable with its declared parameters all required (no
defaults), a chain of positional-only calls whose total argument count
stays below the parameter count returns a wrapper at every step and never
evaluates the callable (empty evaluation trace); a chain of nonempty
batches totalling exactly the parameter count evaluates the callable
exactly once (singleton trace), with the arguments concatenated in the
order they were supplied. -/
theorem curry_chain_correct {V : Type} (F : Func V) (hF : F.is_class = false)
    (hd : F.spec.defaults = 0) (batches : List (List V)) :
    ((batches.map List.length).sum < F.spec.args.length →
      applyChain (curry.mk F (curry.arity_evaluation_checker F) [] []) batches =
        (CallResult.wrapper
          (curry.mk F (curry.arity_evaluation_checker F) (joinAll batches) []), [], [])) ∧
    (batches ≠ [] → (∀ b ∈ batches, b ≠ []) →
      (batches.map List.length).sum = F.spec.args.length →
      applyChain (curry.mk F (curry.arity_evaluation_checker F) [] []) batches =
        (CallResult.evaluated (F.impl (joinAll batches) []),
         [(joinAll batches, [])], [])) := by
  constructor
  · intro h
    have hmain := applyChain_insufficient F hF hd batches [] (by simpa using h)
    simpa using hmain
  · intro h1 h2 h3
    have hmain := applyChain_complete F hF hd batches [] h1 h2 (by simpa using h3)
    simpa using hmain

/-- C1 witness: the three-parameter `F1`, applied across the batch lists
`[[1], [2]]` (two arguments, stays a wrapper, no evaluation) and
`[[1], [2, 3]]` (three arguments, evaluated once with `[1, 2, 3]`). -/
theorem curry_chain_correct_witness :
    F1.is_class = false ∧ F1.spec.defaults = 0 ∧
    ((([[1], [2]] : List (List Int)).map List.length).sum < F1.spec.args.length) ∧
    applyChain (curry.mk F1 (curry.arity_evaluation_checker F1) [] []) [[1], [2]] =
      (CallResult.wrapper
        (curry.mk F1 (curry.arity_evaluation_checker F1) (joinAll [[1], [2]]) []), [], []) ∧
    applyChain (curry.mk F1 (curry.arity_evaluation_checker F1) [] []) [[1], [2, 3]] =
      (CallResult.evaluated (F1.impl (joinAll [[1], [2, 3]]) []),
       [(joinAll [[1], [2, 3]], [])], []) := by
  refine ⟨rfl, rfl, by decide, ?_, ?_⟩
  · exact (curry_chain_correct F1 rfl rfl [[1], [2]]).1 (by decide)
  · exact (curry_chain_correct F1 rfl rfl [[1], [2, 3]]).2 (by decide) (by decide) (by decide)

/-- C2: every invocation forms the merged positional sequence as the
accumulated arguments concatenated with the new ones and the merged named
mapping as the accumulated dict overlaid with the new dict, evaluates the
checker on exactly these merged collections, and either calls the wrapped
callable with them or returns a new wrapper carrying them; on the merged
dict a lookup returns the new binding when the name was resupplied (new
bindings win), the accumulated binding otherwise. -/
theorem curry_call_merges {V : Type} (w : curry V) (args : List V) (kwargs : Kwargs V)
    (h : (kwargs.map Prod.fst).Nodup) :
    curryCall w args kwargs =
      (if w.evaluation_checker (w.args ++ args) (dictUpdate w.kwargs kwargs) then
        (CallResult.evaluated (w.function.impl (w.args ++ args) (dictUpdate w.kwargs kwargs)),
         [(w.args ++ args, dictUpdate w.kwargs kwargs)])
      else
        (CallResult.wrapper
          (curry.mk w.function w.evaluation_checker (w.args ++ args)
            (dictUpdate w.kwargs kwargs)), [])) ∧
    ∀ k, dictGet (dictUpdate w.kwargs kwargs) k =
      match dictGet kwargs k with
      | some v => some v
      | none => dictGet w.kwargs k :=
  ⟨rfl, fun k => dictGet_dictUpdate kwargs w.kwargs k h⟩

/-- C2 witness: a wrapper with accumulated `a = 1, b = 2`, called again
with `b = 9, c = 3`: the merged dict yields `b = 9` (new binding wins),
`a = 1`, `c = 3`. -/
theorem curry_call_merges_witness :
    (([("b", (9 : Int)), ("c", 3)].map Prod.fst).Nodup) ∧
    dictGet (dictUpdate w2c.kwargs [("b", (9 : Int)), ("c", 3)]) "b" = some 9 ∧
    dictGet (dictUpdate w2c.kwargs [("b", (9 : Int)), ("c", 3)]) "a" = some 1 ∧
    dictGet (dictUpdate w2c.kwargs [("b", (9 : Int)), ("c", 3)]) "c" = some 3 := by
  have h := (curry_call_merges w2c [] [("b", (9 : Int)), ("c", 3)] (by decide)).2
  refine ⟨by decide, ?_, ?_, ?_⟩
  · rw [h "b"]; rfl
  · rw [h "a"]; rfl
  · rw [h "c"]; rfl

/-- C3: the default arity checker approves exactly when the required
parameters (the declared ones after dropping the positionally filled
prefix and then the trailing default-valued ones) are empty or all bound
by keyword names; for `fxy` with signature `f(x, y=1)`, calling with only
`x = 7` evaluates immediately with `y` defaulting to `1` (result `17`),
and calling with `x = 7` and keyword `y = 5` evaluates with `y = 5`
(result `57`). -/
theorem arity_checker_required {V : Type} (F : Func V) (hF : F.is_class = false)
    (args : List V) (kwargs : Kwargs V) :
    (curry.arity_evaluation_checker F args kwargs = true ↔
      (requiredParams F.spec.args F.spec.defaults args.length = [] ∨
        ∀ a ∈ requiredParams F.spec.args F.spec.defaults args.length,
          a ∈ kwargs.map Prod.fst)) ∧
    curryCall wxy [7] [] = (CallResult.evaluated (Except.ok 17), [([7], [])]) ∧
    curryCall wxy [7] [("y", 5)] =
      (CallResult.evaluated (Except.ok 57), [([7], [("y", 5)])]) := by
  refine ⟨?_, rfl, rfl⟩
  rw [arity_checker_eval F hF args kwargs]
  simp [List.all_eq_true]

/-- C3 witness: the generic part applied at `fxy` with no arguments
and no keywords, together with the immediate-evaluation conjunct. -/
theorem arity_checker_required_witness :
    fxy.is_class = false ∧
    curryCall wxy [7] [] = (CallResult.evaluated (Except.ok 17), [([7], [])]) := by
  have h := arity_checker_required fxy rfl ([] : List Int) []
  exact ⟨rfl, h.2.1⟩

/-- C4: against an explicit object store, an invocation with insufficient
arguments allocates a fresh wrapper (index past the end of the store) and
writes no existing store entry; invoking the same stored wrapper with a
second completion allocates another fresh wrapper whose content depends
only on the original wrapper and the second completion, and the wrapper
allocated for the first completion is still intact afterwards. -/
theorem store_call_immutable {V : Type} (s : List (curry V)) (i : Nat) (w : curry V)
    (a1 a2 : List V) (k1 k2 : Kwargs V) (hw : s[i]? = some w)
    (h1 : w.evaluation_checker (w.args ++ a1) (dictUpdate w.kwargs k1) = false)
    (h2 : w.evaluation_checker (w.args ++ a2) (dictUpdate w.kwargs k2) = false) :
    curryCallS s i a1 k1 = (s ++ [curry.child w a1 k1], StepResult.fresh s.length) ∧
    (∀ j, j < s.length → (s ++ [curry.child w a1 k1])[j]? = s[j]?) ∧
    curryCallS (s ++ [curry.child w a1 k1]) i a2 k2 =
      ((s ++ [curry.child w a1 k1]) ++ [curry.child w a2 k2],
       StepResult.fresh (s.length + 1)) ∧
    ((s ++ [curry.child w a1 k1]) ++ [curry.child w a2 k2])[s.length]? =
      some (curry.child w a1 k1) ∧
    i < s.length ∧ s.length ≠ i := by
  have hi : i < s.length := by
    by_contra hni
    rw [List.getElem?_eq_none (Nat.le_of_not_lt hni)] at hw
    cases hw
  have hfirst : curryCallS s i a1 k1 =
      (s ++ [curry.child w a1 k1], StepResult.fresh s.length) := by
    simp only [curryCallS, hw, curry.child, h1, Bool.false_eq_true, if_false]
  have hkeep : ∀ j, j < s.length → (s ++ [curry.child w a1 k1])[j]? = s[j]? :=
    fun _j hj => List.getElem?_append_left hj
  have hw2 : (s ++ [curry.child w a1 k1])[i]? = some w := by
    rw [List.getElem?_append_left hi]; exact hw
  have hsecond : curryCallS (s ++ [curry.child w a1 k1]) i a2 k2 =
      ((s ++ [curry.child w a1 k1]) ++ [curry.child w a2 k2],
       StepResult.fresh (s.length + 1)) := by
    simp only [curryCallS, hw2, h2, Bool.false_eq_true, if_false,
      List.length_append, List.length_singleton]
    rfl
  refine ⟨hfirst, hkeep, hsecond, ?_, hi, by omega⟩
  rw [List.getElem?_append_left (by simp), List.getElem?_concat_length]

/-- C4 witness: a store holding the single wrapper `w4`; calling it with
one positional argument allocates index 1 and leaves entry 0 unchanged. -/
theorem store_call_immutable_witness :
    store4[0]? = some w4 ∧
    curryCallS store4 0 [1] [] = (store4 ++ [curry.child w4 [1] []], StepResult.fresh 1) ∧
    (store4 ++ [curry.child w4 [1] []])[0]? = store4[0]? := by
  have h := store_call_immutable store4 0 w4 [1] [2] [] [] rfl (by decide) (by decide)
  exact ⟨rfl, h.1, h.2.1 0 (by decide)⟩

/-- C5 (code defect exhibited): invoking `curry(f5)` with the keyword `z`,
which is not a parameter of `f5` and cannot be accepted (`f5` has no
**kwargs), is detected by the unrecognized-argument condition of line 73
of the source, yet the invocation raises nothing and silently returns a
fresh wrapper carrying `z` in its accumulated keyword arguments: the
`TypeError` built on line 74 is never raised. -/
theorem unrecognized_kwarg_silently_accepted :
    unrecognized_kwargs f5 ([] : List Int) [("z", (1 : Int))] = true ∧
    curryCall w5 [] [("z", (1 : Int))] =
      (CallResult.wrapper
        (curry.mk f5 (curry.arity_evaluation_checker f5) [] [("z", (1 : Int))]), []) :=
  ⟨by decide, rfl⟩

/-- C6: the count checker approves exactly when the merged positional
count reaches the threshold, regardless of keyword arguments, and when
evaluation occurs all accumulated and newly supplied keyword arguments
are forwarded to the wrapped callable. -/
theorem count_checker_threshold {V : Type} (count : Nat) (F : Func V) (acc : List V)
    (accK : Kwargs V) (args : List V) (kwargs : Kwargs V) :
    (curry.count_evaluation_checker count args kwargs = true ↔ count ≤ args.length) ∧
    (count ≤ (acc ++ args).length →
      curryCall (curry.mk F (curry.count_evaluation_checker count) acc accK) args kwargs =
        (CallResult.evaluated (F.impl (acc ++ args) (dictUpdate accK kwargs)),
         [(acc ++ args, dictUpdate accK kwargs)])) := by
  constructor
  · simp [curry.count_evaluation_checker]
  · intro h
    have hc : curry.count_evaluation_checker (V := V) count (acc ++ args)
        (dictUpdate accK kwargs) = true := by
      simp only [curry.count_evaluation_checker, ge_iff_le, decide_eq_true_eq]
      exact h
    simp only [curryCall, hc, if_true]

/-- C6 witness: threshold three, reached with accumulated `[1, 2]` plus
`[3]`; the keyword `k = 5` supplied alongside is forwarded on
evaluation. -/
theorem count_checker_threshold_witness :
    (3 : Nat) ≤ ([1, 2] ++ [(3 : Int)]).length ∧
    curryCall (curry.mk F1 (curry.count_evaluation_checker 3) [1, 2] []) [3]
      [("k", (5 : Int))] =
      (CallResult.evaluated (F1.impl ([1, 2] ++ [3]) (dictUpdate [] [("k", (5 : Int))])),
       [([1, 2] ++ [3], dictUpdate [] [("k", (5 : Int))])]) := by
  refine ⟨by decide, ?_⟩
  exact (count_checker_threshold 3 F1 [1, 2] [] [3] [("k", (5 : Int))]).2 (by decide)

/-- C7 counterexample: the claim that the instance is prepended as the
first positional argument fails on the source, which appends it: a
wrapper over `greet` that already accumulated the argument `1`, accessed
through the instance with value `2`, is bound to `[1, 2]`, not `[2, 1]`. -/
theorem get_prepend_counterexample :
    ((curry_get wne (some inst7)).2).args ≠ inst7.selfVal :: wne.args := by decide

/-- C7 (amended): class access returns the unbound wrapper unchanged;
instance access yields a wrapper whose accumulated positional arguments
are the original ones with the instance appended at the end, so the
instance is the first positional argument exactly when nothing had been
accumulated, the ordinary method case; in that case `instance.greet(3)`
with instance value `7` evaluates as `greet(7, 3)`. -/
theorem get_appends_instance {V : Type} (self : curry V) (inst : Instance V) :
    curry_get self none = (none, self) ∧
    (curry_get self (some inst)).2 =
      curry.mk self.function self.evaluation_checker (self.args ++ [inst.selfVal])
        self.kwargs ∧
    (self.args = [] → (curry_get self (some inst)).2.args = inst.selfVal :: self.args) ∧
    curryCall ((curry_get wgreet (some instW)).2) [3] [] =
      (CallResult.evaluated (Except.ok 73), [([7, 3], [])]) := by
  refine ⟨rfl, rfl, ?_, rfl⟩
  intro h
  simp [curry_get, boundOf, h]

/-- C7 witness: `wgreet` has no accumulated arguments, so the bound
wrapper starts with the instance value. -/
theorem get_appends_instance_witness :
    wgreet.args = [] ∧
    (curry_get wgreet (some instW)).2.args = instW.selfVal :: wgreet.args := by
  have h := get_appends_instance wgreet instW
  exact ⟨rfl, h.2.2.1 rfl⟩

/-- C8: the exposed constructor is the class wrapped by itself; calling
it with only the keyword `evaluation_checker` returns a wrapper (a
one-argument factory carrying the checker), and applying that factory to
a single callable evaluates the constructor, whose result is a wrapper
object over that callable with the supplied checker, not a final
evaluation result. -/
theorem curried_constructor_factory {V : Type} (X : List V → Kwargs V → Bool) (F : Func V) :
    curryCall (curried_curry V) [] [("evaluation_checker", CVal.checkerV X)] =
      (CallResult.wrapper
        (curry.mk (curry_class_func V) (curry.arity_evaluation_checker (curry_class_func V))
          [] [("evaluation_checker", CVal.checkerV X)]), []) ∧
    curryCall
      (curry.mk (curry_class_func V) (curry.arity_evaluation_checker (curry_class_func V))
        [] [("evaluation_checker", CVal.checkerV X)])
      [CVal.funcV F] [] =
      (CallResult.evaluated (Except.ok (CVal.wrap (curry.mk F X [] []))),
       [([CVal.funcV F], [("evaluation_checker", CVal.checkerV X)])]) :=
  ⟨rfl, rfl⟩

/-- C8 witness: the factory scenario at a concrete checker (count two)
and the concrete callable `F1`. -/
theorem curried_constructor_factory_witness :
    curryCall (curried_curry Int) []
      [("evaluation_checker", CVal.checkerV (curry.count_evaluation_checker 2))] =
      (CallResult.wrapper
        (curry.mk (curry_class_func Int)
          (curry.arity_evaluation_checker (curry_class_func Int))
          [] [("evaluation_checker", CVal.checkerV (curry.count_evaluation_checker 2))]),
       []) ∧
    curryCall
      (curry.mk (curry_class_func Int)
        (curry.arity_evaluation_checker (curry_class_func Int))
        [] [("evaluation_checker", CVal.checkerV (curry.count_evaluation_checker 2))])
      [CVal.funcV F1] [] =
      (CallResult.evaluated
        (Except.ok (CVal.wrap (curry.mk F1 (curry.count_evaluation_checker 2) [] []))),
       [([CVal.funcV F1],
         [("evaluation_checker", CVal.checkerV (curry.count_evaluation_checker 2))])]) :=
  curried_constructor_factory (curry.count_evaluation_checker 2) F1

/-- C9: when the checker approves, the invocation returns exactly what the
wrapped callable returns, so an exception from the callable propagates
unmodified, and the invocation raises an error if and only if the
underlying call raises that error. -/
theorem evaluation_error_propagates {V : Type} (w : curry V) (args : List V)
    (kwargs : Kwargs V)
    (h : w.evaluation_checker (w.args ++ args) (dictUpdate w.kwargs kwargs) = true) :
    (curryCall w args kwargs).1 =
      CallResult.evaluated (w.function.impl (w.args ++ args) (dictUpdate w.kwargs kwargs)) ∧
    ∀ e : String,
      (curryCall w args kwargs).1 = CallResult.evaluated (Except.error e) ↔
        w.function.impl (w.args ++ args) (dictUpdate w.kwargs kwargs) = Except.error e := by
  have h1 : (curryCall w args kwargs).1 =
      CallResult.evaluated (w.function.impl (w.args ++ args) (dictUpdate w.kwargs kwargs)) := by
    simp only [curryCall, h, if_true]
  refine ⟨h1, fun e => ?_⟩
  rw [h1]
  constructor
  · intro he
    exact CallResult.evaluated.inj he
  · intro he
    rw [he]

/-- C9 witness: `wboom` always evaluates and its callable always raises;
the raised error surfaces unchanged from the invocation. -/
theorem evaluation_error_propagates_witness :
    wboom.evaluation_checker (wboom.args ++ []) (dictUpdate wboom.kwargs []) = true ∧
    (curryCall wboom [] []).1 = CallResult.evaluated (Except.error "boom") := by
  have h := evaluation_error_propagates wboom [] [] (by decide)
  exact ⟨by decide, (h.2 "boom").mpr rfl⟩

/-- C10: accessing a wrapper through an instance mutates the instance:
the freshly built bound wrapper is stored under the attribute named by
the wrapped function name and also under the attribute named by the
wrapped function docstring; every other attribute of the instance is
untouched. -/
theorem get_sets_instance_attributes {V : Type} (self : curry V) (inst : Instance V) :
    curry_get self (some inst) =
      (some (Instance.mk inst.selfVal (attrsAfterGet self inst)), boundOf self inst) ∧
    dictGet (attrsAfterGet self inst) self.function.name = some (boundOf self inst) ∧
    dictGet (attrsAfterGet self inst) self.function.doc = some (boundOf self inst) ∧
    (∀ k, k ≠ self.function.name → k ≠ self.function.doc →
      dictGet (attrsAfterGet self inst) k = dictGet inst.attrs k) := by
  refine ⟨rfl, ?_, ?_, ?_⟩
  · by_cases hnd : self.function.doc = self.function.name
    · unfold attrsAfterGet
      rw [hnd, dictGet_dictSet_self]
    · unfold attrsAfterGet
      rw [dictGet_dictSet_ne _ _ _ _ (fun he => hnd he.symm), dictGet_dictSet_self]
  · unfold attrsAfterGet
    rw [dictGet_dictSet_self]
  · intro k hk1 hk2
    unfold attrsAfterGet
    rw [dictGet_dictSet_ne _ _ _ _ hk2, dictGet_dictSet_ne _ _ _ _ hk1]

/-- C10 witness: accessing `wgreet` through the instance `instW` stores
the bound wrapper under `greet` and under `greet doc`, and the unrelated
attribute `other` keeps its value. -/
theorem get_sets_instance_attributes_witness :
    dictGet (attrsAfterGet wgreet instW) "greet" = some (boundOf wgreet instW) ∧
    dictGet (attrsAfterGet wgreet instW) "greet doc" = some (boundOf wgreet instW) ∧
    dictGet (attrsAfterGet wgreet instW) "other" = dictGet instW.attrs "other" := by
  have h := get_sets_instance_attributes wgreet instW
  exact ⟨h.2.1, h.2.2.1, h.2.2.2 "other" (by decide) (by decide)⟩

end Currying
